import Mathlib

/-!
Verification development for the Jenkins package-availability monitoring check
(checks.d/packageCanBeDownloaded.py).

The Python module is embedded shallowly:

* Python strings are Lean `String`; the character-level operations the script
  uses (`str.split('.')`, `str.count('.')`, `str.isdigit()`, `int(...)`) are
  modelled on `List Char`.
* The network is an explicit parameter: `FetchOutcome` is the result of opening
  and parsing the metadata URL, `ProbeOutcome` the result of opening a package
  URL. Raised Python exceptions become explicit `PyError` values.
* The check object's mutable `root` attribute becomes explicit state passing
  (`CheckState`), together with a counter of fetch attempts so that claims
  about the number of network operations can be stated.
-/

namespace PackageCheck

/-- Result of the parsed maven-metadata document: the text of the
`versioning/latest` node and the texts of all `versioning/versions/version`
nodes, in document order. -/
structure VersionDocument where
  latest : String
  versions : List String
deriving DecidableEq, Repr

/-- Outcome of opening and parsing the metadata URL: either a parsed document,
or a raised `URLError` (any network-level failure). -/
inductive FetchOutcome where
  | success : VersionDocument → FetchOutcome
  | urlError : FetchOutcome
deriving DecidableEq, Repr

/-- Outcome of `urlopen` on a package URL: either a response carrying an HTTP
status code, or a raised `HTTPError` carrying its status code and its string
rendering. -/
inductive ProbeOutcome where
  | response : Nat → ProbeOutcome
  | httpError : Nat → String → ProbeOutcome
deriving DecidableEq, Repr

/-- Python exceptions the script can raise past its own handlers. -/
inductive PyError where
  /-- Dereferencing the absent parse tree: `None.find(...)` after a failed
  `build_tree`. -/
  | attributeError
  /-- Raised by `int(...)` inside the sort key on a non-numeric component. -/
  | valueError
  /-- Raised by `stable_versions[0]` when the filtered list is empty; the
  specification names this failure `EmptyVersionSetError`. -/
  | indexError
deriving DecidableEq, Repr

/-- Mutable state of the `PackageCanBeDownloaded` object: the cached parse
tree (`self.root`), plus a count of metadata fetch attempts made so far (not
part of the Python object; it makes the number of network operations
observable in theorems). -/
structure CheckState where
  root : Option VersionDocument
  fetchCount : Nat
deriving DecidableEq, Repr

/-- Python `str.split('.')` on the character list of a string. -/
def splitDot : List Char → List (List Char)
  | [] => [[]]
  | c :: cs =>
    if c = '.' then [] :: splitDot cs
    else
      match splitDot cs with
      | [] => [[c]]
      | w :: ws => (c :: w) :: ws

/-- Python `str.isdigit()` (restricted to ASCII digits, the only characters
version strings contain): non-empty and all characters are digits. -/
def pyAllDigits (l : List Char) : Bool := !l.isEmpty && l.all Char.isDigit

/-- Numeric value of a list of ASCII digit characters. -/
def digitsToNat (l : List Char) : Nat := l.foldl (fun n c => 10 * n + (c.toNat - 48)) 0

/-- Python `int(...)` on a string: strip whitespace, allow an optional sign,
then require a non-empty run of digits; `none` models a raised `ValueError`. -/
def pyIntChars (l : List Char) : Option Int :=
  let t := ((l.dropWhile Char.isWhitespace).reverse.dropWhile Char.isWhitespace).reverse
  match t with
  | '-' :: rest => if pyAllDigits rest then some (-(digitsToNat rest : Int)) else none
  | '+' :: rest => if pyAllDigits rest then some ((digitsToNat rest : Int)) else none
  | _ => if pyAllDigits t then some ((digitsToNat t : Int)) else none

/-- Sort key of the stable-version sort (the inner function `as_version` of
`get_latest_stable_version`): split into `major.minor.patch`, drop a
non-numeric patch, and convert the components with `int`. `none` models a
raised `ValueError` (wrong number of components, or a non-numeric
major/minor). -/
def as_version (ele : String) : Option (List Int) :=
  match splitDot ele.data with
  | [major, minor, patch] =>
    match pyIntChars major, pyIntChars minor with
    | some ma, some mi =>
      if pyAllDigits patch then some [ma, mi, (digitsToNat patch : Int)]
      else some [ma, mi]
    | _, _ => none
  | _ => none

/-- Python list comparison on integer lists (the order `list.sort` uses on the
keys produced by `as_version`): lexicographic, a strict prefix is smaller. -/
def listIntLtB : List Int → List Int → Bool
  | [], [] => false
  | [], _ :: _ => true
  | _ :: _, [] => false
  | a :: as, b :: bs => if a < b then true else if b < a then false else listIntLtB as bs

/-- Greater-or-equal on keyed versions, the order of the descending sort:
`a` may come before `b` exactly when the key of `a` is not smaller. -/
abbrev keyGe (a b : List Int × String) : Prop := listIntLtB a.1 b.1 = false

/-- The stable descending sort `stable_versions.sort(key=as_version, reverse=True)`,
on the key-decorated list. -/
def stable_sort (l : List (List Int × String)) : List (List Int × String) :=
  List.insertionSort keyGe l

/-- Key decoration performed by `list.sort(key=as_version)`: every element is
paired with its key before comparisons start; a failing key aborts the whole
sort with a `ValueError`. -/
def keyed_versions (l : List String) : Option (List (List Int × String)) :=
  l.mapM (fun v => (as_version v).map (fun k => (k, v)))

/-- Filter of `get_latest_stable_version`: keep the version strings whose text
contains exactly two dots (`version.text.count('.') == 2`). -/
def stable_filter (versions : List String) : List String :=
  versions.filter (fun v => v.data.count '.' == 2)

/-- Stable-version computation on an available document: filter, decorate with
`as_version` keys, sort descending, take element 0. -/
def stable_result (d : VersionDocument) : Except PyError String :=
  let stable_versions := stable_filter d.versions
  match keyed_versions stable_versions with
  | none => .error .valueError
  | some keyed =>
    match stable_sort keyed with
    | [] => .error .indexError
    | (_, v) :: _ => .ok v

/-- Method `build_tree`: fetch and parse the metadata URL; a raised `URLError`
is caught, a warning is logged, and `None` is returned. Either way one fetch
attempt is made. -/
def build_tree (env : FetchOutcome) (s : CheckState) : Option VersionDocument × CheckState :=
  let s1 : CheckState := { s with fetchCount := s.fetchCount + 1 }
  match env with
  | .success d => (some d, s1)
  | .urlError => (none, s1)

/-- Shared caching prologue of both version getters:
`if not self.root: self.root = self.build_tree()`. -/
def ensure_root (env : FetchOutcome) (s : CheckState) : CheckState :=
  if s.root.isNone then
    let (r, s1) := build_tree env s
    { s1 with root := r }
  else s

/-- Method `get_latest_weekly_version`: ensure the cached tree, then read
`versioning/latest`; when the tree is absent the attribute access on `None`
raises `AttributeError`. -/
def get_latest_weekly_version (env : FetchOutcome) (s : CheckState) :
    Except PyError String × CheckState :=
  let s1 := ensure_root env s
  match s1.root with
  | none => (.error .attributeError, s1)
  | some d => (.ok d.latest, s1)

/-- Method `get_latest_stable_version`: ensure the cached tree, then filter,
sort and index the version list; when the tree is absent the attribute access
on `None` raises `AttributeError`. -/
def get_latest_stable_version (env : FetchOutcome) (s : CheckState) :
    Except PyError String × CheckState :=
  let s1 := ensure_root env s
  match s1.root with
  | none => (.error .attributeError, s1)
  | some d => (stable_result d, s1)

/-- The endpoint dictionary literal of `create_endpoints`, as a pure function
of the two version strings and the host name, in insertion order. -/
def create_endpoints_table (weekly_version stable_version hostname : String) :
    List (String × String) :=
  [("debian", "https://" ++ hostname ++ "/debian/jenkins_" ++ weekly_version ++ "_all.deb"),
   ("redhat", "https://" ++ hostname ++ "/redhat/jenkins-" ++ weekly_version ++ "-1.1.noarch.rpm"),
   ("opensuse", "https://" ++ hostname ++ "/opensuse/jenkins-" ++ weekly_version ++ "-1.2.noarch.rpm"),
   ("windows", "https://" ++ hostname ++ "/windows/" ++ weekly_version ++ "/jenkins.msi"),
   ("war", "https://" ++ hostname ++ "/war/" ++ weekly_version ++ "/jenkins.war"),
   ("debian-stable", "https://" ++ hostname ++ "/debian-stable/jenkins_" ++ stable_version ++ "_all.deb"),
   ("redhat-stable", "https://" ++ hostname ++ "/redhat-stable/jenkins-" ++ stable_version ++ "-1.1.noarch.rpm"),
   ("windows-stable", "https://" ++ hostname ++ "/windows-stable/" ++ stable_version ++ "/jenkins.msi"),
   ("opensuse-stable", "https://" ++ hostname ++ "/opensuse-stable/jenkins-" ++ stable_version ++ "-1.2.noarch.rpm"),
   ("war-stable", "https://" ++ hostname ++ "/war-stable/" ++ stable_version ++ "/jenkins.war")]

/-- Endpoint mapping produced from an available document: versions resolved
purely, then formatted. Mirrors `create_endpoints` once the document is
cached. -/
def endpoints_result (d : VersionDocument) (hostname : String) :
    Except PyError (List (String × String)) :=
  match stable_result d with
  | .error e => .error e
  | .ok stable_version => .ok (create_endpoints_table d.latest stable_version hostname)

/-- Method `create_endpoints`: resolve the weekly then the stable version
(sharing the cached document through the state) and format the dictionary. -/
def create_endpoints (env : FetchOutcome) (hostname : String) (s : CheckState) :
    Except PyError (List (String × String)) × CheckState :=
  match get_latest_weekly_version env s with
  | (.error e, s1) => (.error e, s1)
  | (.ok weekly_version, s1) =>
    match get_latest_stable_version env s1 with
    | (.error e, s2) => (.error e, s2)
    | (.ok stable_version, s2) =>
      (.ok (create_endpoints_table weekly_version stable_version hostname), s2)

/-- Function `is_exist`: probe a URL and classify the outcome. Returns the 0/1
availability value together with the diagnostic lines printed. -/
def is_exist (distribution url : String) (o : ProbeOutcome) : Int × List String :=
  match o with
  | .response code =>
    if code ≠ 200 then (1, ["return code should be 200 but is " ++ toString code])
    else (1, [])
  | .httpError code err =>
    if code = 404 then (0, [distribution ++ " package not found on " ++ url])
    else (0, ["Something went wrong with url " ++ url ++ " for " ++ distribution ++
              " package: " ++ err])

/-- Method `check`: build the endpoints, then for the requested package either
emit one gauge sample (metric name, value, tags) or log that the package is
unsupported. The result carries the gauge samples and the warning lines of a
completed run; an uncaught exception from `create_endpoints` propagates. -/
def check (env : FetchOutcome) (probe : ProbeOutcome) (package : String) (s : CheckState) :
    Except PyError (List (String × Int × List String) × List String) × CheckState :=
  match create_endpoints env "get.jenkins.io" s with
  | (.error e, s1) => (.error e, s1)
  | (.ok endpoints, s1) =>
    let warns := ["PackageAvailable: " ++ package]
    match endpoints.lookup package with
    | some url =>
      (.ok ([("jenkins.package.available", (is_exist package url probe).1,
              ["package:" ++ package])], warns), s1)
    | none =>
      (.ok ([], warns ++ ["PackageCanDownload: Package " ++ package ++ " is not supported"]),
       s1)

/-- Modelled from the spec: the stable-version shape the specification
describes for the filter, namely exactly three dot-separated components with
numeric major and minor (the patch may be numeric or not). Used to compare the
specified filter against the implemented one. -/
def specStableShape (s : String) : Bool :=
  match splitDot s.data with
  | [major, minor, _] => pyAllDigits major && pyAllDigits minor
  | _ => false

/-- Concrete metadata document used by the concrete instances of the claims:
latest field 2.401 and the version list of the specification's example. -/
def doc0 : VersionDocument := ⟨"2.401", ["2.401", "2.390.1", "2.390", "2.389.3"]⟩

/-! Properties of the key order used by the descending sort. -/

lemma listIntLtB_irrefl : ∀ l : List Int, listIntLtB l l = false := by
  intro l
  induction l with
  | nil => rfl
  | cons a as ih => simp [listIntLtB, ih]

lemma listIntLtB_asymm : ∀ a b : List Int, listIntLtB a b = true → listIntLtB b a = false := by
  intro a
  induction a with
  | nil =>
    intro b h
    cases b with
    | nil => exact absurd h (by simp [listIntLtB])
    | cons y ys => rfl
  | cons x xs ih =>
    intro b h
    cases b with
    | nil => simp [listIntLtB] at h
    | cons y ys =>
      simp only [listIntLtB] at h ⊢
      split_ifs at h ⊢ <;> first | rfl | omega | (exact ih ys h)

lemma listIntLtB_trans_aux : ∀ a b c : List Int,
    listIntLtB a c = true → listIntLtB a b = false → listIntLtB b c = true := by
  intro a
  induction a with
  | nil =>
    intro b c hac hab
    cases b with
    | nil => exact hac
    | cons z zs => simp [listIntLtB] at hab
  | cons x xs ih =>
    intro b c hac hab
    cases c with
    | nil => simp [listIntLtB] at hac
    | cons y ys =>
      cases b with
      | nil => rfl
      | cons z zs =>
        simp only [listIntLtB] at hac hab ⊢
        split_ifs at hac hab ⊢ <;>
          first | rfl | omega | (exact ih zs ys hac hab)

instance : IsTotal (List Int × String) keyGe := by
  constructor
  intro a b
  cases h : listIntLtB a.1 b.1 with
  | false => exact Or.inl h
  | true => exact Or.inr (listIntLtB_asymm _ _ h)

instance : IsTrans (List Int × String) keyGe := by
  constructor
  intro a b c hab hbc
  cases h : listIntLtB a.1 c.1 with
  | false => exact h
  | true => exact absurd (listIntLtB_trans_aux a.1 b.1 c.1 h hab) (by simp [hbc])

/-- Head of the descending sort is a member of the input carrying a maximal
key. -/
lemma stable_sort_head_max {keyed rest : List (List Int × String)} {kv : List Int}
    {v : String} (h : stable_sort keyed = (kv, v) :: rest) :
    (kv, v) ∈ keyed ∧ ∀ p ∈ keyed, listIntLtB kv p.1 = false := by
  have hperm : List.Perm (stable_sort keyed) keyed := List.perm_insertionSort keyGe keyed
  have hsorted : List.Sorted keyGe (stable_sort keyed) := List.sorted_insertionSort keyGe keyed
  rw [h] at hperm hsorted
  refine ⟨hperm.mem_iff.mp (List.mem_cons_self _ _), ?_⟩
  intro p hp
  rcases List.mem_cons.mp (hperm.mem_iff.mpr hp) with he | ht
  · rw [he]
    exact listIntLtB_irrefl kv
  · exact List.rel_of_sorted_cons hsorted p ht

/-! Behaviour of the cache and the two version getters. -/

lemma ensure_root_warm (env : FetchOutcome) (s : CheckState) (d : VersionDocument)
    (h : s.root = some d) : ensure_root env s = s := by
  simp [ensure_root, h]

lemma ensure_root_cold_success (d : VersionDocument) (s : CheckState) (h : s.root = none) :
    ensure_root (.success d) s = ⟨some d, s.fetchCount + 1⟩ := by
  simp [ensure_root, h, build_tree]

lemma ensure_root_cold_fail (s : CheckState) (h : s.root = none) :
    ensure_root .urlError s = ⟨none, s.fetchCount + 1⟩ := by
  simp [ensure_root, h, build_tree]

lemma get_weekly_warm (env : FetchOutcome) (s : CheckState) (d : VersionDocument)
    (h : s.root = some d) : get_latest_weekly_version env s = (.ok d.latest, s) := by
  simp [get_latest_weekly_version, ensure_root_warm env s d h, h]

lemma get_stable_warm (env : FetchOutcome) (s : CheckState) (d : VersionDocument)
    (h : s.root = some d) : get_latest_stable_version env s = (stable_result d, s) := by
  simp [get_latest_stable_version, ensure_root_warm env s d h, h]

lemma create_endpoints_warm (env : FetchOutcome) (hostname : String) (s : CheckState)
    (d : VersionDocument) (h : s.root = some d) :
    create_endpoints env hostname s = (endpoints_result d hostname, s) := by
  simp only [create_endpoints, get_weekly_warm env s d h, get_stable_warm env s d h,
    endpoints_result]
  cases stable_result d <;> rfl

/-! Elementary facts the claims reuse. -/

lemma is_exist_val (d u : String) (o : ProbeOutcome) :
    (is_exist d u o).1 = 0 ∨ (is_exist d u o).1 = 1 := by
  cases o with
  | response c => by_cases h : c ≠ 200 <;> simp [is_exist, h]
  | httpError c e => by_cases h : c = 404 <;> simp [is_exist, h]

lemma splitDot_ne_nil : ∀ l : List Char, splitDot l ≠ [] := by
  intro l
  cases l with
  | nil => simp [splitDot]
  | cons c cs =>
    simp only [splitDot]
    split_ifs
    · simp
    · cases h : splitDot cs <;> simp

lemma splitDot_length : ∀ l : List Char, (splitDot l).length = l.count '.' + 1 := by
  intro l
  induction l with
  | nil => rfl
  | cons c cs ih =>
    simp only [splitDot]
    by_cases h : c = '.'
    · subst h
      simp [List.count_cons, ih]
    · rw [if_neg h]
      cases hs : splitDot cs with
      | nil => exact absurd hs (splitDot_ne_nil cs)
      | cons w ws =>
        have hl : (w :: ws).length = cs.count '.' + 1 := hs ▸ ih
        simp only [List.length_cons] at hl ⊢
        simp [List.count_cons, h, hl]

/-- C1: for every host name, rolling version string and stable version string,
the endpoint builder's mapping has exactly the ten documented package
identifiers as its key set, each identifier maps to the documented URL
template, and with rolling 2.401, stable 2.390.1, host get.jenkins.io the war
and war-stable entries are the two documented URLs. -/
theorem c1_endpoint_table : ∀ host rolling stable : String,
    ((create_endpoints_table rolling stable host).map Prod.fst =
      ["debian", "redhat", "opensuse", "windows", "war", "debian-stable",
       "redhat-stable", "windows-stable", "opensuse-stable", "war-stable"])
    ∧ (create_endpoints_table rolling stable host).lookup "debian"
        = some ("https://" ++ host ++ "/debian/jenkins_" ++ rolling ++ "_all.deb")
    ∧ (create_endpoints_table rolling stable host).lookup "redhat"
        = some ("https://" ++ host ++ "/redhat/jenkins-" ++ rolling ++ "-1.1.noarch.rpm")
    ∧ (create_endpoints_table rolling stable host).lookup "opensuse"
        = some ("https://" ++ host ++ "/opensuse/jenkins-" ++ rolling ++ "-1.2.noarch.rpm")
    ∧ (create_endpoints_table rolling stable host).lookup "windows"
        = some ("https://" ++ host ++ "/windows/" ++ rolling ++ "/jenkins.msi")
    ∧ (create_endpoints_table rolling stable host).lookup "war"
        = some ("https://" ++ host ++ "/war/" ++ rolling ++ "/jenkins.war")
    ∧ (create_endpoints_table rolling stable host).lookup "debian-stable"
        = some ("https://" ++ host ++ "/debian-stable/jenkins_" ++ stable ++ "_all.deb")
    ∧ (create_endpoints_table rolling stable host).lookup "redhat-stable"
        = some ("https://" ++ host ++ "/redhat-stable/jenkins-" ++ stable ++ "-1.1.noarch.rpm")
    ∧ (create_endpoints_table rolling stable host).lookup "windows-stable"
        = some ("https://" ++ host ++ "/windows-stable/" ++ stable ++ "/jenkins.msi")
    ∧ (create_endpoints_table rolling stable host).lookup "opensuse-stable"
        = some ("https://" ++ host ++ "/opensuse-stable/jenkins-" ++ stable ++ "-1.2.noarch.rpm")
    ∧ (create_endpoints_table rolling stable host).lookup "war-stable"
        = some ("https://" ++ host ++ "/war-stable/" ++ stable ++ "/jenkins.war")
    ∧ (create_endpoints_table "2.401" "2.390.1" "get.jenkins.io").lookup "war"
        = some "https://get.jenkins.io/war/2.401/jenkins.war"
    ∧ (create_endpoints_table "2.401" "2.390.1" "get.jenkins.io").lookup "war-stable"
        = some "https://get.jenkins.io/war-stable/2.390.1/jenkins.war" := by
  intro host rolling stable
  refine ⟨rfl, ?_, ?_, ?_, ?_, ?_, ?_, ?_, ?_, ?_, ?_, rfl, rfl⟩ <;>
    simp [create_endpoints_table, List.lookup]

/-- C3 (counterexample): the string a.b.c has exactly two dot separators but
non-numeric major and minor components, so the claimed filter excludes it,
yet the implemented filter keeps it. -/
theorem c3_filter_counterexample :
    ¬ (("a.b.c" ∈ stable_filter ["a.b.c"]) ↔ specStableShape "a.b.c" = true) := by
  decide

/-- C3 (amended): the stable-version filter keeps a string if and only if its
text has exactly two dot separators, that is, it splits into exactly three
dot-separated components; the numericness of the components is not checked by
the filter. -/
theorem c3_filter_amended (vs : List String) (s : String) :
    s ∈ stable_filter vs ↔ s ∈ vs ∧ (splitDot s.data).length = 3 := by
  simp only [stable_filter, List.mem_filter, splitDot_length, beq_iff_eq]
  constructor
  · rintro ⟨h1, h2⟩
    exact ⟨h1, by omega⟩
  · rintro ⟨h1, h2⟩
    exact ⟨h1, by omega⟩

/-- C5: the prober returns 1 with no diagnostic on HTTP 200; 1 with an
unexpected-code diagnostic on any other non-raising status; 0 with a
package-not-found diagnostic on a raised HTTP 404; and 0 with a diagnostic
containing the error detail on any other raised HTTP error. -/
theorem c5_prober_classification :
    (∀ d u : String, is_exist d u (.response 200) = (1, []))
  ∧ (∀ (d u : String) (c : Nat), c ≠ 200 →
      is_exist d u (.response c) = (1, ["return code should be 200 but is " ++ toString c]))
  ∧ (∀ d u e : String,
      is_exist d u (.httpError 404 e) = (0, [d ++ " package not found on " ++ u]))
  ∧ (∀ (d u : String) (c : Nat) (e : String), c ≠ 404 →
      (is_exist d u (.httpError c e)).1 = 0 ∧
      ∃ diagPre, (is_exist d u (.httpError c e)).2 = [diagPre ++ e]) := by
  refine ⟨fun d u => rfl, fun d u c hc => by simp [is_exist, hc], fun d u e => rfl,
    fun d u c e hc => ⟨by simp [is_exist, hc], ?_⟩⟩
  refine ⟨"Something went wrong with url " ++ u ++ " for " ++ d ++ " package: ", ?_⟩
  simp only [is_exist]
  rw [if_neg hc]

/-- Witness for C5 at status 503 without a raised error and at a raised HTTP
500 error. -/
theorem c5_prober_classification_witness :
    is_exist "war" "https://get.jenkins.io/war/2.401/jenkins.war" (.response 503)
      = (1, ["return code should be 200 but is " ++ toString 503])
  ∧ (is_exist "war" "https://get.jenkins.io/war/2.401/jenkins.war"
      (.httpError 500 "HTTP Error 500: Internal Server Error")).1 = 0 :=
  ⟨c5_prober_classification.2.1 "war" "https://get.jenkins.io/war/2.401/jenkins.war" 503
      (by decide),
   (c5_prober_classification.2.2.2 "war" "https://get.jenkins.io/war/2.401/jenkins.war" 500
      "HTTP Error 500: Internal Server Error" (by decide)).1⟩

/-- C6: with a cached document whose filtered stable set is empty, the
stable-version resolution fails with the out-of-range failure the
specification names EmptyVersionSetError, instead of returning a version
string. -/
theorem c6_empty_stable_fails (env : FetchOutcome) (s : CheckState) (d : VersionDocument)
    (h : s.root = some d) (hempty : stable_filter d.versions = []) :
    (get_latest_stable_version env s).1 = .error .indexError := by
  rw [get_stable_warm env s d h]
  simp only [stable_result, hempty, keyed_versions, stable_sort]
  rfl

/-- Witness for C6 on a document listing only weekly-format versions. -/
theorem c6_empty_stable_fails_witness :
    (get_latest_stable_version .urlError ⟨some ⟨"2.401", ["2.401", "2.390"]⟩, 0⟩).1
      = Except.error PyError.indexError :=
  c6_empty_stable_fails .urlError ⟨some ⟨"2.401", ["2.401", "2.390"]⟩, 0⟩
    ⟨"2.401", ["2.401", "2.390"]⟩ rfl (by decide)

/-- C7 (code bug): on a network-level failure while fetching the metadata
document, no document is produced, but both version getters then crash with
the unhandled AttributeError of dereferencing the absent tree, instead of
failing with the handled fetch error and skipping extraction as the claim
requires. -/
theorem c7_fetch_failure_crash :
    build_tree .urlError ⟨none, 0⟩ = (none, ⟨none, 1⟩)
  ∧ get_latest_weekly_version .urlError ⟨none, 0⟩ = (.error .attributeError, ⟨none, 1⟩)
  ∧ get_latest_stable_version .urlError ⟨none, 0⟩ = (.error .attributeError, ⟨none, 1⟩) :=
  ⟨rfl, rfl, rfl⟩

/-- C2: the descending sort is ordered by the key order, the key of a
three-component version string with convertible major and minor is exactly the
integer triple with a non-numeric patch omitted, and the claimed example chain
2.320.1 above 2.319.3 above a [2, 319]-keyed version holds. -/
theorem c2_sort_by_version_triple :
    (∀ l : List (List Int × String), List.Sorted keyGe (stable_sort l))
  ∧ (∀ (s : String) (major minor patch : List Char) (ima imi : Int),
      splitDot s.data = [major, minor, patch] →
      pyIntChars major = some ima → pyIntChars minor = some imi →
      as_version s = some ([ima, imi] ++
        (if pyAllDigits patch then [(digitsToNat patch : Int)] else [])))
  ∧ (as_version "2.320.1" = some [2, 320, 1]
      ∧ as_version "2.319.3" = some [2, 319, 3]
      ∧ as_version "2.319.beta" = some [2, 319]
      ∧ listIntLtB [2, 319, 3] [2, 320, 1] = true
      ∧ listIntLtB [2, 319] [2, 319, 3] = true
      ∧ (stable_sort [([2, 319], "2.319.beta"), ([2, 320, 1], "2.320.1"),
            ([2, 319, 3], "2.319.3")]).map Prod.snd
          = ["2.320.1", "2.319.3", "2.319.beta"]) := by
  refine ⟨fun l => List.sorted_insertionSort keyGe l, ?_, by decide⟩
  intro s major minor patch ima imi hsplit hma hmi
  simp only [as_version, hsplit, hma, hmi]
  by_cases h : pyAllDigits patch <;> simp [h]

/-- Witness for C2 at the version string 2.320.1. -/
theorem c2_sort_by_version_triple_witness :
    as_version "2.320.1" = some ([2, 320] ++ [(1 : Int)]) := by
  rw [c2_sort_by_version_triple.2.1 "2.320.1" ['2'] ['3', '2', '0'] ['1'] 2 320
    (by decide) (by decide) (by decide)]
  decide

/-- C4: with a cached document whose filtered stable set is non-empty and all
sort keys computable, the stable resolution returns a member of the filtered
set whose key is maximal under the version-key order, and the weekly
resolution returns the text of the versioning/latest field; concretely, for
versions 2.401, 2.390.1, 2.390, 2.389.3 with latest 2.401, the stable result
is 2.390.1 and the rolling result is 2.401. -/
theorem c4_version_resolution :
    (∀ (env : FetchOutcome) (s : CheckState) (d : VersionDocument)
       (keyed : List (List Int × String)),
      s.root = some d →
      keyed_versions (stable_filter d.versions) = some keyed →
      keyed ≠ [] →
      ∃ kv v, (get_latest_stable_version env s).1 = .ok v ∧ (kv, v) ∈ keyed ∧
        ∀ p ∈ keyed, listIntLtB kv p.1 = false)
  ∧ (∀ (env : FetchOutcome) (s : CheckState) (d : VersionDocument),
      s.root = some d → (get_latest_weekly_version env s).1 = .ok d.latest)
  ∧ ((get_latest_stable_version .urlError ⟨some doc0, 0⟩).1 = .ok "2.390.1"
      ∧ (get_latest_weekly_version .urlError ⟨some doc0, 0⟩).1 = .ok "2.401") := by
  refine ⟨?_, ?_, rfl, rfl⟩
  · intro env s d keyed h hkeyed hne
    rw [get_stable_warm env s d h]
    simp only [stable_result, hkeyed]
    cases hs : stable_sort keyed with
    | nil =>
      have hlen := (List.perm_insertionSort keyGe keyed).length_eq
      rw [show List.insertionSort keyGe keyed = stable_sort keyed from rfl, hs] at hlen
      exact absurd (List.length_eq_zero.mp hlen.symm) hne
    | cons p tl =>
      obtain ⟨kv, v⟩ := p
      have hmax := stable_sort_head_max hs
      exact ⟨kv, v, rfl, hmax.1, hmax.2⟩
  · intro env s d h
    rw [get_weekly_warm env s d h]

/-- Witness for C4 on the concrete example document. -/
theorem c4_version_resolution_witness :
    keyed_versions (stable_filter doc0.versions)
      = some [([2, 390, 1], "2.390.1"), ([2, 389, 3], "2.389.3")]
  ∧ ∃ kv v, (get_latest_stable_version .urlError ⟨some doc0, 0⟩).1 = .ok v
      ∧ (kv, v) ∈ [([2, 390, 1], "2.390.1"), ([2, 389, 3], "2.389.3")]
      ∧ ∀ p ∈ [([2, 390, 1], "2.390.1"), ([2, 389, 3], "2.389.3")],
          listIntLtB kv p.1 = false :=
  ⟨by decide,
   c4_version_resolution.1 .urlError ⟨some doc0, 0⟩ doc0
     [([2, 390, 1], "2.390.1"), ([2, 389, 3], "2.389.3")] rfl (by decide) (by decide)⟩

/-- C8: when the endpoint construction succeeds, a supported package yields
exactly one gauge sample on the fixed metric name, tagged with the package
identifier and valued by the prober result which is 0 or 1; an unsupported
package yields no gauge sample and an unsupported-package warning. -/
theorem c8_check_orchestration :
    (∀ (env : FetchOutcome) (probe : ProbeOutcome) (package : String) (s : CheckState)
       (eps : List (String × String)) (url : String),
      (create_endpoints env "get.jenkins.io" s).1 = .ok eps →
      eps.lookup package = some url →
      ∃ warns, (check env probe package s).1 =
          .ok ([("jenkins.package.available", (is_exist package url probe).1,
                 ["package:" ++ package])], warns)
        ∧ ((is_exist package url probe).1 = 0 ∨ (is_exist package url probe).1 = 1))
  ∧ (∀ (env : FetchOutcome) (probe : ProbeOutcome) (package : String) (s : CheckState)
       (eps : List (String × String)),
      (create_endpoints env "get.jenkins.io" s).1 = .ok eps →
      eps.lookup package = none →
      ∃ warns, (check env probe package s).1 = .ok ([], warns)
        ∧ ("PackageCanDownload: Package " ++ package ++ " is not supported") ∈ warns) := by
  constructor
  · intro env probe package s eps url hok hlook
    rcases he : create_endpoints env "get.jenkins.io" s with ⟨r, s1⟩
    rw [he] at hok
    simp only at hok
    subst hok
    exact ⟨["PackageAvailable: " ++ package], by simp [check, he, hlook],
      is_exist_val package url probe⟩
  · intro env probe package s eps hok hlook
    rcases he : create_endpoints env "get.jenkins.io" s with ⟨r, s1⟩
    rw [he] at hok
    simp only at hok
    subst hok
    refine ⟨["PackageAvailable: " ++ package] ++
      ["PackageCanDownload: Package " ++ package ++ " is not supported"], ?_, by simp⟩
    simp [check, he, hlook]

/-- Witness for C8 on the concrete example document with the war package and
a 200 probe. -/
theorem c8_check_orchestration_witness :
    ∃ warns, (check .urlError (.response 200) "war" ⟨some doc0, 0⟩).1 =
        .ok ([("jenkins.package.available",
               (is_exist "war" "https://get.jenkins.io/war/2.401/jenkins.war" (.response 200)).1,
               ["package:war"])], warns)
      ∧ ((is_exist "war" "https://get.jenkins.io/war/2.401/jenkins.war" (.response 200)).1 = 0
        ∨ (is_exist "war" "https://get.jenkins.io/war/2.401/jenkins.war" (.response 200)).1 = 1) :=
  c8_check_orchestration.1 .urlError (.response 200) "war" ⟨some doc0, 0⟩
    (create_endpoints_table "2.401" "2.390.1" "get.jenkins.io")
    "https://get.jenkins.io/war/2.401/jenkins.war" rfl rfl

/-- C9: with the document available, building the endpoint mapping performs no
network access and no effect: the state (and in particular the fetch count) is
unchanged, the result does not depend on the network environment, and the
mapping produced is the pure string formatting of the two version strings and
the host name. -/
theorem c9_endpoint_builder_pure (env env2 : FetchOutcome) (hostname : String)
    (s : CheckState) (d : VersionDocument) (h : s.root = some d) :
    (create_endpoints env hostname s).2 = s
  ∧ create_endpoints env hostname s = create_endpoints env2 hostname s
  ∧ (∀ eps, (create_endpoints env hostname s).1 = .ok eps →
      ∃ stable, stable_result d = .ok stable
        ∧ eps = create_endpoints_table d.latest stable hostname) := by
  rw [create_endpoints_warm env hostname s d h, create_endpoints_warm env2 hostname s d h]
  refine ⟨rfl, rfl, ?_⟩
  intro eps hok
  simp only [endpoints_result] at hok
  cases hst : stable_result d with
  | error e => rw [hst] at hok; simp at hok
  | ok stable =>
    rw [hst] at hok
    simp only [Except.ok.injEq] at hok
    exact ⟨stable, rfl, hok.symm⟩

/-- Witness for C9 on the concrete example document, comparing a failing and a
succeeding network environment. -/
theorem c9_endpoint_builder_pure_witness :
    (create_endpoints .urlError "get.jenkins.io" ⟨some doc0, 5⟩).2 = ⟨some doc0, 5⟩
  ∧ create_endpoints .urlError "get.jenkins.io" ⟨some doc0, 5⟩
      = create_endpoints (.success doc0) "get.jenkins.io" ⟨some doc0, 5⟩ :=
  ⟨(c9_endpoint_builder_pure .urlError (.success doc0) "get.jenkins.io" ⟨some doc0, 5⟩ doc0
      rfl).1,
   (c9_endpoint_builder_pure .urlError (.success doc0) "get.jenkins.io" ⟨some doc0, 5⟩ doc0
      rfl).2.1⟩

/-- C10 (counterexample): after one check invocation from a fresh state, the
parsed document is still cached in the state handed to the next invocation,
and the second invocation performs no fetch (the fetch count stays 1) and
reuses the same document, so the cache does not start fresh each run and the
parsed document persists from one invocation to the next. -/
theorem c10_cache_counterexample :
    ((check (.success doc0) (.response 200) "war" ⟨none, 0⟩).2 = ⟨some doc0, 1⟩)
  ∧ ((check (.success doc0) (.response 200) "war" ⟨some doc0, 1⟩).2 = ⟨some doc0, 1⟩) :=
  ⟨rfl, rfl⟩

/-- C10 (amended): within one invocation both version lookups share a single
fetched document and exactly one fetch attempt occurs from a fresh state; the
cache lives on the check object and is never cleared, so a subsequent
invocation whose state already holds a document performs no fetch and reuses
that document unchanged. -/
theorem c10_cache_amended :
    (∀ (d : VersionDocument) (hostname : String) (n : Nat),
      create_endpoints (.success d) hostname ⟨none, n⟩
        = (endpoints_result d hostname, ⟨some d, n + 1⟩))
  ∧ (∀ (d : VersionDocument) (n : Nat),
      get_latest_stable_version (.success d)
          (get_latest_weekly_version (.success d) ⟨none, n⟩).2
        = (stable_result d, ⟨some d, n + 1⟩))
  ∧ (∀ (env : FetchOutcome) (probe : ProbeOutcome) (package : String) (s : CheckState)
       (d : VersionDocument), s.root = some d → (check env probe package s).2 = s) := by
  have hweek : ∀ (d : VersionDocument) (n : Nat),
      get_latest_weekly_version (.success d) ⟨none, n⟩ = (.ok d.latest, ⟨some d, n + 1⟩) := by
    intro d n
    simp [get_latest_weekly_version, ensure_root_cold_success d ⟨none, n⟩ rfl]
  refine ⟨?_, ?_, ?_⟩
  · intro d hostname n
    simp only [create_endpoints, hweek d n,
      get_stable_warm (.success d) ⟨some d, n + 1⟩ d rfl, endpoints_result]
    cases stable_result d <;> rfl
  · intro d n
    rw [hweek d n]
    exact get_stable_warm (.success d) ⟨some d, n + 1⟩ d rfl
  · intro env probe package s d h
    simp only [check, create_endpoints_warm env "get.jenkins.io" s d h]
    cases endpoints_result d "get.jenkins.io" with
    | error e => rfl
    | ok eps => cases hl : eps.lookup package <;> simp [hl]

/-- Witness for C10 (amended) on the concrete example document: a warm second
invocation leaves the state untouched. -/
theorem c10_cache_amended_witness :
    (check .urlError (.response 200) "war" ⟨some doc0, 1⟩).2 = ⟨some doc0, 1⟩ :=
  c10_cache_amended.2.2 .urlError (.response 200) "war" ⟨some doc0, 1⟩ doc0 rfl

end PackageCheck
